import Mathlib

/-!
Verification of the Capacity Allocation Engine (`lp_solver.py`, entered via
`app.py`'s `allocate_capacity_helper`).

The engine is embedded shallowly:
* the `carrier_profile` table is a `List Carrier`; a carrier's
  `allocatable_tps` column is `Option ℚ` (`none` models a NULL / non-numeric
  value, which the source's `int(...)` with `try/except` maps to 0);
* the external LP solver (`scipy.optimize.linprog`) is a parameter of type
  `Solver`; soundness ("every returned point satisfies the formulated
  constraints") and completeness ("a feasible program is not reported
  infeasible") are hypotheses where a claim needs them;
* a Python exception escaping the call is `none`; a normal return is `some`;
* Python `round(x, 2)` is `round2` over ℚ; Python `int(x)` truncation toward
  zero is `truncQ`; the string parsing `request['peak_window'].split('-')`
  plus `int(...)` is `splitDash` / `toIntM` / `parsePeakWindow`.
-/

namespace SmartCap

structure Carrier where
  carrier_name : String
  actual_peak_start_time : Int
  actual_peak_end_time : Int
  allocatable_tps : Option ℚ
  supported_countries_list : List String
deriving DecidableEq, Repr

structure AllocationRequest where
  requested_tps : ℚ
  destinations : List String
  peak_window : Option String
deriving DecidableEq, Repr

inductive AllocResult where
  | error (message : String)
  | success (total_requested_tps : Int) (total_allocated_tps : ℚ)
      (allocations : List (String × ℚ))
deriving DecidableEq, Repr

/-- Python `int(q)` on a rational value: truncation toward zero. -/
def truncQ (q : ℚ) : Int :=
  if 0 ≤ q then ⌊q⌋ else ⌈q⌉

/-- Python `round(q, 2)`: rounding to two decimal places. -/
def round2 (q : ℚ) : ℚ :=
  ((round (100 * q) : ℤ) : ℚ) / 100

/-- `compute_allocatable_tps` of `lp_solver.py`: `max(0, int(row['allocatable_tps']))`,
with any conversion error (NULL / non-numeric cell) giving 0. -/
def compute_allocatable_tps (c : Carrier) : Int :=
  match c.allocatable_tps with
  | none => 0
  | some v => max 0 (truncQ v)

/-- Python `s.split('-')` on the auxiliary character list. -/
def splitDashAux : List Char → List Char → List String
  | [], acc => [String.mk acc.reverse]
  | c :: rest, acc =>
    if c = '-' then String.mk acc.reverse :: splitDashAux rest []
    else splitDashAux rest (c :: acc)

/-- Python `s.split('-')`. -/
def splitDash (s : String) : List String :=
  splitDashAux s.toList []

def digitVal (c : Char) : Option Nat :=
  if '0' ≤ c ∧ c ≤ '9' then some (c.toNat - '0'.toNat) else none

def parseNatAux : List Char → Nat → Option Nat
  | [], acc => some acc
  | c :: rest, acc =>
    match digitVal c with
    | some d => parseNatAux rest (acc * 10 + d)
    | none => none

def parseNatChars : List Char → Option Nat
  | [] => none
  | l => parseNatAux l 0

/-- Python `int(s)` on a string: optional sign followed by decimal digits;
`none` models the `ValueError` exception. -/
def toIntM (s : String) : Option Int :=
  match s.toList with
  | '-' :: rest => (parseNatChars rest).map (fun n => -(n : Int))
  | '+' :: rest => (parseNatChars rest).map (fun n => (n : Int))
  | l => (parseNatChars l).map (fun n => (n : Int))

/-- `request.get('peak_window', '0-23').split('-')` followed by the two
`int(...)` conversions; `none` models the exception raised on a string that
does not split into exactly two integer parts. -/
def parsePeakWindow (s : String) : Option (Int × Int) :=
  match splitDash s with
  | [a, b] =>
    match toIntM a, toIntM b with
    | some x, some y => some (x, y)
    | _, _ => none
  | _ => none

/-- Stage-1 filter of `allocate_customer_capacity`: keep carriers whose
supported-country list contains at least one requested destination. -/
def filter_by_destinations (table : List Carrier) (dests : List String) : List Carrier :=
  table.filter (fun c => dests.any (fun d => c.supported_countries_list.contains d))

/-- `peak_time_overlaps` of `lp_solver.py`:
`not (carrier_end <= requested_start or carrier_start >= requested_end)`. -/
def peak_time_overlaps (rqs rqe : Int) (c : Carrier) : Bool :=
  !(decide (c.actual_peak_end_time ≤ rqs) || decide (rqe ≤ c.actual_peak_start_time))

/-- The carrier set that reaches the LP formulation: the destination filter
followed by the peak-window filter. -/
def eligible_carriers (table : List Carrier) (req : AllocationRequest)
    (rqs rqe : Int) : List Carrier :=
  (filter_by_destinations table req.destinations).filter (peak_time_overlaps rqs rqe)

/-- Sum of the decision variables over the carriers supporting destination `d`
(the left-hand side of the per-destination coverage row of `A_ub`). -/
def destSupportSum (l : List (Carrier × ℚ)) (d : String) : ℚ :=
  (l.map (fun p => if p.1.supported_countries_list.contains d then p.2 else 0)).sum

/-- The constraint system handed to `linprog`: per-variable bounds
`0 ≤ x_i ≤ max_allocatable_tps_i`, the equality row `Σ x_i = requested_tps`,
and for each destination `d` the coverage row
`Σ_{i supports d} x_i ≥ requested_tps / k`. -/
def lpFeasible (cs : List Carrier) (tps : ℚ) (dests : List String) (x : List ℚ) : Prop :=
  x.length = cs.length ∧
  (∀ p ∈ cs.zip x, 0 ≤ p.2 ∧ p.2 ≤ (compute_allocatable_tps p.1 : ℚ)) ∧
  x.sum = tps ∧
  ∀ d ∈ dests, tps / (dests.length : ℚ) ≤ destSupportSum (cs.zip x) d

instance (cs : List Carrier) (tps : ℚ) (dests : List String) (x : List ℚ) :
    Decidable (lpFeasible cs tps dests x) := by
  unfold lpFeasible
  infer_instance

/-- Abstract interface of `scipy.optimize.linprog`: from the eligible carriers
(the bounds), the requested TPS (the equality row) and the destination list
(the coverage rows), either a solution vector or a failure. -/
abbrev Solver := List Carrier → ℚ → List String → Option (List ℚ)

/-- The success-path loop of `allocate_customer_capacity`: keep the entries of
`result.x` with `tps > 0`, rounding each to two decimals. -/
def build_allocations (l : List (Carrier × ℚ)) : List (Carrier × ℚ) :=
  l.filterMap (fun p => if 0 < p.2 then some (p.1, round2 p.2) else none)

/-- The `allocations` list of the success payload: carrier name paired with the
rounded allocated TPS. -/
def allocation_entries (l : List (Carrier × ℚ)) : List (String × ℚ) :=
  (build_allocations l).map (fun p => (p.1.carrier_name, p.2))

/-- One SQL `UPDATE` of `update_allocatable_tps`:
`SET allocatable_tps = GREATEST(allocatable_tps - allocated, 0)
WHERE carrier_name = name`. -/
def commit_one (table : List Carrier) (name : String) (allocated : ℚ) : List Carrier :=
  table.map (fun c =>
    if c.carrier_name = name then
      { c with allocatable_tps := c.allocatable_tps.map (fun a => max (a - allocated) 0) }
    else c)

/-- `update_allocatable_tps` of `lp_solver.py`: one `UPDATE` per allocation. -/
def update_allocatable_tps (table : List Carrier)
    (allocations : List (String × ℚ)) : List Carrier :=
  allocations.foldl (fun t p => commit_one t p.1 p.2) table

/-- `allocate_customer_capacity` of `lp_solver.py`, with the LP solver as a
parameter. The value is the returned dict together with the post-call carrier
table; `none` models an uncaught exception. The second (always-false) emptiness
test mirrors the dead check after the `max_allocatable_tps` column is computed:
that step adds a column and removes no row. -/
def allocate_customer_capacity (solve : Solver) (table : List Carrier)
    (req : AllocationRequest) : Option (AllocResult × List Carrier) :=
  let filtered1 := filter_by_destinations table req.destinations
  if filtered1.isEmpty then
    some (.error "No carriers found supporting the requested destinations", table)
  else if filtered1.isEmpty then
    some (.error "No carriers found supporting the requested TPS", table)
  else
    match parsePeakWindow (req.peak_window.getD "0-23") with
    | none => none
    | some (rqs, rqe) =>
      let filtered2 := eligible_carriers table req rqs rqe
      if filtered2.isEmpty then
        some (.error "No carriers found supporting the requested peak times", table)
      else
        match solve filtered2 req.requested_tps req.destinations with
        | none => some (.error "Could not allocate TPS under current constraints", table)
        | some x =>
          let allocations := allocation_entries (filtered2.zip x)
          some (.success (truncQ req.requested_tps) (round2 x.sum) allocations,
            update_allocatable_tps table allocations)

inductive HelperResult where
  | failure (message : String)
  | success (allocations : List (String × ℚ)) (total_allocated_tps : ℚ)
deriving DecidableEq, Repr

/-- The request dict as it reaches `allocate_capacity_helper`: each required
key either absent (`none`) or present. -/
structure RawRequest where
  requested_tps : Option ℚ
  destinations : Option (List String)
  peak_window : Option String
  peak_tps : Option ℚ
deriving DecidableEq, Repr

/-- `allocate_capacity_helper` of `app.py`: the required-keys subset check,
then the engine call, with `error`/`failure` statuses mapped to a `failure`
result and the success payload passed through. -/
def allocate_capacity_helper (solve : Solver) (table : List Carrier)
    (r : RawRequest) : Option (HelperResult × List Carrier) :=
  match r.requested_tps, r.destinations, r.peak_window, r.peak_tps with
  | some tps, some ds, some pw, some _ =>
    match allocate_customer_capacity solve table ⟨tps, ds, some pw⟩ with
    | none => none
    | some (.error m, t) => some (.failure m, t)
    | some (.success _ tot allocs, t) => some (.success allocs tot, t)
  | _, _, _, _ => some (.failure "Missing required fields", table)

/-- Sum of the `allocated_tps` entries of a built allocation list restricted to
the carriers supporting destination `d`. -/
def dest_allocated_sum (d : String) (m : List (Carrier × ℚ)) : ℚ :=
  ((m.filter (fun p => p.1.supported_countries_list.contains d)).map (fun p => p.2)).sum

/-- A solver that always reports infeasibility (trivially sound). -/
def noneSolver : Solver := fun _ _ _ => none

/-- A solver that returns a fixed candidate point after checking it against
the formulated constraints (sound by construction). -/
def guessSolver (g : List ℚ) : Solver := fun cs tps ds =>
  if lpFeasible cs tps ds g then some g else none

/-- A solver that answers the all-zero vector on zero-TPS programs (sound:
the zero vector is feasible exactly when the requested TPS is zero). -/
def zeroVecSolver : Solver := fun cs tps _ =>
  if tps = 0 then some (List.replicate cs.length 0) else none

def carrierA : Carrier := ⟨"A", 8, 16, some 30, ["US", "CA"]⟩

def carrierB : Carrier := ⟨"B", 0, 23, some 40, ["US"]⟩

def carrierLate : Carrier := ⟨"L", 23, 24, some 100, ["US"]⟩

def zeroCapacityCarrier : Carrier := ⟨"Z", 0, 23, some 0, ["US"]⟩

lemma round2_sub_abs (q : ℚ) : |round2 q - q| ≤ 1 / 200 := by
  have h := abs_sub_round (100 * q)
  have e : round2 q - q = -((100 * q - ((round (100 * q) : ℤ) : ℚ)) / 100) := by
    unfold round2; ring
  rw [e, abs_neg, abs_div]
  have h100 : |(100 : ℚ)| = 100 := by norm_num
  rw [h100]
  linarith

lemma round2_ge (q : ℚ) : q - 1 / 200 ≤ round2 q := by
  have h := round2_sub_abs q
  have := abs_le.mp h
  linarith [this.1]

lemma build_sum_close (l : List (Carrier × ℚ)) (hp : ∀ p ∈ l, 0 ≤ p.2) :
    |((build_allocations l).map (fun p => p.2)).sum - (l.map (fun p => p.2)).sum| ≤
      ((build_allocations l).length : ℚ) / 200 := by
  induction l with
  | nil => simp [build_allocations]
  | cons p t ih =>
    have hp0 : 0 ≤ p.2 := hp p (List.mem_cons_self p t)
    have iht := ih (fun q hq => hp q (List.mem_cons_of_mem p hq))
    by_cases hpos : 0 < p.2
    · have hb : build_allocations (p :: t) = (p.1, round2 p.2) :: build_allocations t := by
        simp [build_allocations, List.filterMap_cons, hpos]
      rw [hb]
      simp only [List.map_cons, List.sum_cons, List.length_cons]
      have h1 := round2_sub_abs p.2
      have key : round2 p.2 + ((build_allocations t).map (fun p => p.2)).sum -
          (p.2 + (t.map (fun p => p.2)).sum) =
          (round2 p.2 - p.2) +
            (((build_allocations t).map (fun p => p.2)).sum - (t.map (fun p => p.2)).sum) := by
        ring
      rw [key]
      have habs := abs_add (round2 p.2 - p.2)
        (((build_allocations t).map (fun p => p.2)).sum - (t.map (fun p => p.2)).sum)
      push_cast
      have : (((build_allocations t).length : ℚ) + 1) / 200 =
          ((build_allocations t).length : ℚ) / 200 + 1 / 200 := by ring
      rw [this]
      linarith
    · have hz : p.2 = 0 := le_antisymm (not_lt.mp hpos) hp0
      have hb : build_allocations (p :: t) = build_allocations t := by
        simp [build_allocations, List.filterMap_cons, hpos]
      rw [hb]
      simp only [List.map_cons, List.sum_cons, hz, zero_add]
      exact iht

lemma build_dest_sum_ge (l : List (Carrier × ℚ)) (d : String)
    (hp : ∀ p ∈ l, 0 ≤ p.2) :
    destSupportSum l d - ((build_allocations l).length : ℚ) / 200 ≤
      dest_allocated_sum d (build_allocations l) := by
  induction l with
  | nil => simp [build_allocations, destSupportSum, dest_allocated_sum]
  | cons p t ih =>
    have hp0 : 0 ≤ p.2 := hp p (List.mem_cons_self p t)
    have iht := ih (fun q hq => hp q (List.mem_cons_of_mem p hq))
    by_cases hpos : 0 < p.2
    · have hb : build_allocations (p :: t) = (p.1, round2 p.2) :: build_allocations t := by
        simp [build_allocations, List.filterMap_cons, hpos]
      by_cases hsupp : p.1.supported_countries_list.contains d = true
      · rw [hb]
        simp only [destSupportSum, dest_allocated_sum, List.map_cons, List.sum_cons,
          List.length_cons, List.filter_cons, hsupp, if_pos] at iht ⊢
        have h1 := round2_ge p.2
        push_cast
        have : ((((build_allocations t).length : ℚ)) + 1) / 200 =
            ((build_allocations t).length : ℚ) / 200 + 1 / 200 := by ring
        rw [this]
        linarith
      · rw [hb]
        simp only [destSupportSum, dest_allocated_sum, List.map_cons, List.sum_cons,
          List.length_cons, List.filter_cons, hsupp] at iht ⊢
        push_cast
        have : ((((build_allocations t).length : ℚ)) + 1) / 200 =
            ((build_allocations t).length : ℚ) / 200 + 1 / 200 := by ring
        rw [this]
        have h200 : (0 : ℚ) < 1 / 200 := by norm_num
        linarith
    · have hz : p.2 = 0 := le_antisymm (not_lt.mp hpos) hp0
      have hb : build_allocations (p :: t) = build_allocations t := by
        simp [build_allocations, List.filterMap_cons, hpos]
      rw [hb]
      simp only [destSupportSum, List.map_cons, List.sum_cons, hz] at iht ⊢
      by_cases hsupp : p.1.supported_countries_list.contains d = true
      · simp only [hsupp, if_true, zero_add]
        exact iht
      · simp only [hsupp, Bool.false_eq_true, if_false, zero_add]
        exact iht

lemma guessSolver_sound (g : List ℚ) (cs : List Carrier) (tps : ℚ)
    (ds : List String) (x : List ℚ) (h : guessSolver g cs tps ds = some x) :
    lpFeasible cs tps ds x := by
  unfold guessSolver at h
  split at h
  · cases h
    assumption
  · cases h

lemma sum_zero_of_nonneg {l : List ℚ} (h0 : l.sum = 0) (hn : ∀ v ∈ l, 0 ≤ v) :
    ∀ v ∈ l, v = 0 := by
  induction l with
  | nil => intro v hv; cases hv
  | cons a t ih =>
    have ha : 0 ≤ a := hn a (List.mem_cons_self a t)
    have ht : 0 ≤ t.sum := List.sum_nonneg (fun v hv => hn v (List.mem_cons_of_mem a hv))
    rw [List.sum_cons] at h0
    have ha0 : a = 0 := by linarith
    have ht0 : t.sum = 0 := by linarith
    intro v hv
    rcases List.mem_cons.mp hv with rfl | hv
    · exact ha0
    · exact ih ht0 (fun w hw => hn w (List.mem_cons_of_mem a hw)) v hv

lemma replicate_zero_feasible (cs : List Carrier) (ds : List String) :
    lpFeasible cs 0 ds (List.replicate cs.length 0) := by
  refine ⟨List.length_replicate _ _, ?_, ?_, ?_⟩
  · intro p hp
    have h2 : p.2 ∈ List.replicate cs.length (0 : ℚ) := (List.of_mem_zip hp).2
    have hz : p.2 = 0 := List.eq_of_mem_replicate h2
    rw [hz]
    refine ⟨le_refl 0, ?_⟩
    have : (0 : ℤ) ≤ compute_allocatable_tps p.1 := by
      unfold compute_allocatable_tps
      split
      · exact le_refl 0
      · exact le_max_left 0 _
    exact_mod_cast this
  · simp
  · intro d hd
    have hz : destSupportSum (cs.zip (List.replicate cs.length 0)) d = 0 := by
      apply List.sum_eq_zero
      intro y hy
      rcases List.mem_map.mp hy with ⟨p, hp, rfl⟩
      have h2 : p.2 ∈ List.replicate cs.length (0 : ℚ) := (List.of_mem_zip hp).2
      have hz2 : p.2 = 0 := List.eq_of_mem_replicate h2
      split
      · exact hz2
      · rfl
    rw [hz, zero_div]

lemma commit_one_preserves_nonneg (table : List Carrier) (name : String) (v : ℚ)
    (hinit : ∀ c ∈ table, ∀ a, c.allocatable_tps = some a → 0 ≤ a) :
    ∀ c ∈ commit_one table name v, ∀ a, c.allocatable_tps = some a → 0 ≤ a := by
  intro c hc a ha
  rcases List.mem_map.mp hc with ⟨c0, hc0, rfl⟩
  by_cases h : c0.carrier_name = name
  · simp only [h, if_true] at ha
    cases hopt : c0.allocatable_tps with
    | none => rw [hopt] at ha; cases ha
    | some b =>
      rw [hopt] at ha
      simp only [Option.map_some'] at ha
      cases ha
      exact le_max_right _ 0
  · simp only [h, if_false] at ha
    exact hinit c0 hc0 a ha

lemma allocate_success_elim {solve : Solver} {table : List Carrier}
    {req : AllocationRequest} {tr : Int} {tot : ℚ} {allocs : List (String × ℚ)}
    {table' : List Carrier}
    (h : allocate_customer_capacity solve table req =
      some (.success tr tot allocs, table')) :
    ∃ rqs rqe x,
      parsePeakWindow (req.peak_window.getD "0-23") = some (rqs, rqe) ∧
      solve (eligible_carriers table req rqs rqe) req.requested_tps req.destinations = some x ∧
      allocs = allocation_entries ((eligible_carriers table req rqs rqe).zip x) ∧
      tot = round2 x.sum ∧ tr = truncQ req.requested_tps ∧
      table' = update_allocatable_tps table allocs := by
  unfold allocate_customer_capacity at h
  cases hf1 : (filter_by_destinations table req.destinations).isEmpty with
  | true => simp [hf1] at h
  | false =>
    simp only [hf1, Bool.false_eq_true, if_false] at h
    cases hpw : parsePeakWindow (req.peak_window.getD "0-23") with
    | none => rw [hpw] at h; cases h
    | some pr =>
      obtain ⟨rqs, rqe⟩ := pr
      rw [hpw] at h
      cases hf2 : (eligible_carriers table req rqs rqe).isEmpty with
      | true => simp [hf2] at h
      | false =>
        simp only [hf2, Bool.false_eq_true, if_false] at h
        cases hs : solve (eligible_carriers table req rqs rqe) req.requested_tps
            req.destinations with
        | none => rw [hs] at h; simp at h
        | some x =>
          rw [hs] at h
          simp only [Option.some.injEq, Prod.mk.injEq, AllocResult.success.injEq] at h
          obtain ⟨⟨htr, htot, hallocs⟩, htab⟩ := h
          subst hallocs
          exact ⟨rqs, rqe, x, rfl, hs, rfl, htot.symm, htr.symm, htab.symm⟩

lemma allocateA_eval :
    allocate_customer_capacity (guessSolver [10]) [carrierA]
      ⟨10, ["US"], some "9-12"⟩ =
    some (.success 10 10 [("A", 10)], [⟨"A", 8, 16, some 20, ["US", "CA"]⟩]) := by
  have hfeas : lpFeasible [carrierA] 10 ["US"] [10] := by
    refine ⟨rfl, ?_, by simp, ?_⟩
    · intro p hp
      simp only [List.zip_cons_cons, List.zip_nil_right, List.mem_singleton] at hp
      subst hp
      refine ⟨by norm_num, ?_⟩
      norm_num [compute_allocatable_tps, carrierA, truncQ]
    · intro d hd
      simp only [List.mem_singleton] at hd
      subst hd
      have hc : (["US", "CA"].contains "US") = true := by decide
      norm_num [destSupportSum, carrierA, hc]
  have hsolve : guessSolver [10] [carrierA] 10 ["US"] = some [10] := by
    unfold guessSolver
    rw [if_pos hfeas]
  have hf1 : (filter_by_destinations [carrierA] ["US"]).isEmpty = false := by decide
  have helig : eligible_carriers [carrierA] ⟨10, ["US"], some "9-12"⟩ 9 12
      = [carrierA] := by decide
  have hpw : parsePeakWindow ((some "9-12").getD "0-23") = some (9, 12) := by decide
  unfold allocate_customer_capacity
  simp only [hf1, hpw, helig, hsolve, Bool.false_eq_true, if_false,
    List.isEmpty_cons]
  have hround : round2 ([(10 : ℚ)].sum) = 10 := by norm_num [round2]
  have hentries : allocation_entries ([carrierA].zip [(10 : ℚ)]) = [("A", 10)] := by
    have h10 : round2 (10 : ℚ) = 10 := by norm_num [round2]
    simp [allocation_entries, build_allocations, carrierA, h10]
  have htrunc : truncQ (10 : ℚ) = 10 := by norm_num [truncQ]
  rw [hround, hentries, htrunc]
  have hupd : update_allocatable_tps [carrierA] [("A", (10 : ℚ))]
      = [⟨"A", 8, 16, some 20, ["US", "CA"]⟩] := by
    simp only [update_allocatable_tps, List.foldl_cons, List.foldl_nil, commit_one,
      List.map_cons, List.map_nil, carrierA]
    norm_num
  rw [hupd]

/-- C1: for every successful allocation the per-carrier `allocated_tps` sum
equals the request's `requested_tps` within the two-decimal rounding tolerance
(`1/200` per reported carrier), and the reported total is the rounded requested
amount — a success never carries a partial allocation. -/
theorem conservation_of_allocation (solve : Solver) (table : List Carrier)
    (req : AllocationRequest) (tr : Int) (tot : ℚ) (allocs : List (String × ℚ))
    (table' : List Carrier)
    (hsound : ∀ cs tps ds x, solve cs tps ds = some x → lpFeasible cs tps ds x)
    (h : allocate_customer_capacity solve table req =
      some (.success tr tot allocs, table')) :
    |((allocs.map (fun p => p.2)).sum) - req.requested_tps| ≤ (allocs.length : ℚ) / 200 ∧
    tot = round2 req.requested_tps := by
  obtain ⟨rqs, rqe, x, hpw, hsolve, hallocs, htot, htr, htab⟩ := allocate_success_elim h
  obtain ⟨hlen, hbounds, hsum, hdest⟩ := hsound _ _ _ _ hsolve
  have hp : ∀ p ∈ (eligible_carriers table req rqs rqe).zip x, 0 ≤ p.2 :=
    fun p hmem => (hbounds p hmem).1
  have hA := build_sum_close ((eligible_carriers table req rqs rqe).zip x) hp
  have hzip : (((eligible_carriers table req rqs rqe).zip x).map (fun p => p.2)).sum
      = x.sum := by
    rw [show (fun p : Carrier × ℚ => p.2) = Prod.snd from rfl]
    rw [List.map_snd_zip (eligible_carriers table req rqs rqe) x (le_of_eq hlen)]
  have hmap : (allocs.map (fun p => p.2)).sum =
      ((build_allocations ((eligible_carriers table req rqs rqe).zip x)).map
        (fun p => p.2)).sum := by
    simp only [hallocs, allocation_entries, List.map_map]
    rfl
  have hlen2 : allocs.length =
      (build_allocations ((eligible_carriers table req rqs rqe).zip x)).length := by
    simp [hallocs, allocation_entries]
  constructor
  · rw [hmap, hlen2]
    rw [hzip, hsum] at hA
    exact hA
  · rw [htot, hsum]

/-- Witness for C1 at the concrete run `allocateA_eval`. -/
theorem conservation_of_allocation_witness :
    |(([("A", (10 : ℚ))] : List (String × ℚ)).map (fun p => p.2)).sum - (10 : ℚ)| ≤
      ((([("A", (10 : ℚ))] : List (String × ℚ)).length : ℚ)) / 200 ∧
    (10 : ℚ) = round2 (10 : ℚ) :=
  conservation_of_allocation (guessSolver [10]) [carrierA] ⟨10, ["US"], some "9-12"⟩
    10 10 [("A", 10)] [⟨"A", 8, 16, some 20, ["US", "CA"]⟩]
    (fun cs tps ds x hx => guessSolver_sound [10] cs tps ds x hx)
    allocateA_eval

/-- C4: in every successful allocation (the solved point of the formulated LP
together with the success payload built from it), each requested destination
`d` receives, from the eligible carriers supporting `d`, at least
`requested_tps / k` minus the two-decimal rounding tolerance; carriers not
supporting `d` are excluded from the sum by construction. -/
theorem destination_minimum (solve : Solver) (table : List Carrier)
    (req : AllocationRequest) (tr : Int) (tot : ℚ) (allocs : List (String × ℚ))
    (table' : List Carrier) (d : String)
    (hsound : ∀ cs tps ds x, solve cs tps ds = some x → lpFeasible cs tps ds x)
    (h : allocate_customer_capacity solve table req =
      some (.success tr tot allocs, table'))
    (hd : d ∈ req.destinations) :
    ∃ rqs rqe x,
      parsePeakWindow (req.peak_window.getD "0-23") = some (rqs, rqe) ∧
      solve (eligible_carriers table req rqs rqe) req.requested_tps req.destinations
        = some x ∧
      allocs = allocation_entries ((eligible_carriers table req rqs rqe).zip x) ∧
      req.requested_tps / (req.destinations.length : ℚ) - (allocs.length : ℚ) / 200 ≤
        dest_allocated_sum d
          (build_allocations ((eligible_carriers table req rqs rqe).zip x)) := by
  obtain ⟨rqs, rqe, x, hpw, hsolve, hallocs, htot, htr, htab⟩ := allocate_success_elim h
  obtain ⟨hlen, hbounds, hsum, hdest⟩ := hsound _ _ _ _ hsolve
  have hp : ∀ p ∈ (eligible_carriers table req rqs rqe).zip x, 0 ≤ p.2 :=
    fun p hmem => (hbounds p hmem).1
  have hB := build_dest_sum_ge ((eligible_carriers table req rqs rqe).zip x) d hp
  have hcon := hdest d hd
  have hlen2 : allocs.length =
      (build_allocations ((eligible_carriers table req rqs rqe).zip x)).length := by
    simp [hallocs, allocation_entries]
  refine ⟨rqs, rqe, x, hpw, hsolve, hallocs, ?_⟩
  rw [hlen2]
  unfold destSupportSum at hB
  unfold destSupportSum at hcon
  linarith

/-- Witness for C4 at the concrete run `allocateA_eval`, destination "US". -/
theorem destination_minimum_witness :
    ∃ rqs rqe x,
      parsePeakWindow ((some "9-12").getD "0-23") = some (rqs, rqe) ∧
      guessSolver [10] (eligible_carriers [carrierA] ⟨10, ["US"], some "9-12"⟩ rqs rqe)
        10 ["US"] = some x ∧
      [("A", (10 : ℚ))] = allocation_entries
        ((eligible_carriers [carrierA] ⟨10, ["US"], some "9-12"⟩ rqs rqe).zip x) ∧
      (10 : ℚ) / ((["US"] : List String).length : ℚ) -
          (([("A", (10 : ℚ))] : List (String × ℚ)).length : ℚ) / 200 ≤
        dest_allocated_sum "US"
          (build_allocations
            ((eligible_carriers [carrierA] ⟨10, ["US"], some "9-12"⟩ rqs rqe).zip x)) :=
  destination_minimum (guessSolver [10]) [carrierA] ⟨10, ["US"], some "9-12"⟩
    10 10 [("A", 10)] [⟨"A", 8, 16, some 20, ["US", "CA"]⟩] "US"
    (fun cs tps ds x hx => guessSolver_sound [10] cs tps ds x hx)
    allocateA_eval (by decide)

/-- C5: every filter-stage rejection and every solver failure is a normal
`error` return that leaves the carrier table untouched. -/
theorem rejection_preserves_state (solve : Solver) (table : List Carrier)
    (req : AllocationRequest) (m : String) (table' : List Carrier)
    (h : allocate_customer_capacity solve table req = some (.error m, table')) :
    table' = table := by
  unfold allocate_customer_capacity at h
  cases hf1 : (filter_by_destinations table req.destinations).isEmpty with
  | true =>
    simp only [hf1, if_true] at h
    simp only [Option.some.injEq, Prod.mk.injEq] at h
    exact h.2.symm
  | false =>
    simp only [hf1, Bool.false_eq_true, if_false] at h
    cases hpw : parsePeakWindow (req.peak_window.getD "0-23") with
    | none => rw [hpw] at h; cases h
    | some pr =>
      obtain ⟨rqs, rqe⟩ := pr
      rw [hpw] at h
      cases hf2 : (eligible_carriers table req rqs rqe).isEmpty with
      | true =>
        simp only [hf2, if_true] at h
        simp only [Option.some.injEq, Prod.mk.injEq] at h
        exact h.2.symm
      | false =>
        simp only [hf2, Bool.false_eq_true, if_false] at h
        cases hs : solve (eligible_carriers table req rqs rqe) req.requested_tps
            req.destinations with
        | none =>
          rw [hs] at h
          simp only [Option.some.injEq, Prod.mk.injEq] at h
          exact h.2.symm
        | some x =>
          rw [hs] at h
          simp only [Option.some.injEq, Prod.mk.injEq] at h
          exact absurd h.1 (by simp)

/-- Witness for C5 at a concrete destination-stage rejection. -/
theorem rejection_preserves_state_witness : [carrierA] = [carrierA] :=
  rejection_preserves_state noneSolver [carrierA] ⟨10, ["MX"], some "0-23"⟩
    "No carriers found supporting the requested destinations" [carrierA] (by decide)

/-- C6: the destination stage keeps exactly the carriers whose supported
countries intersect the requested destinations, and a request whose
destinations are disjoint from every carrier's supported countries is always
rejected with the destination message — independent of capacities, peak
windows and the solver. -/
theorem disjoint_destinations_always_rejected (solve : Solver) (table : List Carrier)
    (req : AllocationRequest)
    (hdisj : ∀ c ∈ table, ∀ d ∈ req.destinations, d ∉ c.supported_countries_list) :
    allocate_customer_capacity solve table req =
      some (.error "No carriers found supporting the requested destinations", table) ∧
    ∀ c : Carrier, c ∈ filter_by_destinations table req.destinations ↔
      (c ∈ table ∧ ∃ d ∈ req.destinations, d ∈ c.supported_countries_list) := by
  have hmem : ∀ c : Carrier, c ∈ filter_by_destinations table req.destinations ↔
      (c ∈ table ∧ ∃ d ∈ req.destinations, d ∈ c.supported_countries_list) := by
    intro c
    simp [filter_by_destinations, List.mem_filter, List.any_eq_true]
  have hnil : filter_by_destinations table req.destinations = [] := by
    rw [List.eq_nil_iff_forall_not_mem]
    intro c hc
    rcases (hmem c).mp hc with ⟨hct, d, hd, hdc⟩
    exact hdisj c hct d hd hdc
  refine ⟨?_, hmem⟩
  unfold allocate_customer_capacity
  simp [hnil]

/-- Witness for C6 at a concrete disjoint request. -/
theorem disjoint_destinations_always_rejected_witness :
    allocate_customer_capacity noneSolver [carrierA] ⟨10, ["MX"], some "0-23"⟩ =
      some (.error "No carriers found supporting the requested destinations",
        [carrierA]) ∧
    ∀ c : Carrier, c ∈ filter_by_destinations [carrierA] ["MX"] ↔
      (c ∈ [carrierA] ∧ ∃ d ∈ ["MX"], d ∈ c.supported_countries_list) :=
  disjoint_destinations_always_rejected noneSolver [carrierA]
    ⟨10, ["MX"], some "0-23"⟩ (by decide)

/-- C2: a single commit against a carrier sets its `allocatable_tps` to
`max(allocatable_tps - allocated, 0)`, which is never negative, and a full
update pass preserves non-negativity of every numeric `allocatable_tps`. -/
theorem capacity_commit_safety :
    (∀ (c : Carrier) (name : String) (allocated a : ℚ),
       c.carrier_name = name → c.allocatable_tps = some a →
       commit_one [c] name allocated =
         [{ c with allocatable_tps := some (max (a - allocated) 0) }] ∧
       (0 : ℚ) ≤ max (a - allocated) 0) ∧
    (∀ (table : List Carrier) (allocs : List (String × ℚ)),
       (∀ c ∈ table, ∀ a, c.allocatable_tps = some a → 0 ≤ a) →
       ∀ c ∈ update_allocatable_tps table allocs, ∀ a,
         c.allocatable_tps = some a → 0 ≤ a) := by
  constructor
  · intro c name allocated a hname hsome
    constructor
    · simp [commit_one, hname, hsome]
    · exact le_max_right _ 0
  · intro table allocs
    induction allocs generalizing table with
    | nil => intro hinit; exact hinit
    | cons p t ih =>
      intro hinit
      exact ih (commit_one table p.1 p.2)
        (commit_one_preserves_nonneg table p.1 p.2 hinit)

/-- Witness for C2: committing 10 TPS against carrier "A" with capacity 30. -/
theorem capacity_commit_safety_witness :
    (commit_one [carrierA] "A" 10 =
      [{ carrierA with allocatable_tps := some (max ((30 : ℚ) - 10) 0) }] ∧
     (0 : ℚ) ≤ max ((30 : ℚ) - 10) 0) :=
  capacity_commit_safety.1 carrierA "A" 10 30 rfl rfl

/-- C10: a request with `requested_tps = 0` whose destinations and peak window
pass the filters succeeds with an empty allocation list, total 0, and an
unchanged carrier table — positivity of `requested_tps` is never validated. -/
theorem zero_tps_allocation (solve : Solver) (table : List Carrier)
    (req : AllocationRequest) (rqs rqe : Int)
    (htps : req.requested_tps = 0)
    (hpw : parsePeakWindow (req.peak_window.getD "0-23") = some (rqs, rqe))
    (hne : (eligible_carriers table req rqs rqe).isEmpty = false)
    (hsound : ∀ x, solve (eligible_carriers table req rqs rqe) req.requested_tps
        req.destinations = some x →
      lpFeasible (eligible_carriers table req rqs rqe) req.requested_tps
        req.destinations x)
    (hcomp : (∃ x, lpFeasible (eligible_carriers table req rqs rqe) req.requested_tps
        req.destinations x) →
      (solve (eligible_carriers table req rqs rqe) req.requested_tps
        req.destinations).isSome = true) :
    allocate_customer_capacity solve table req = some (.success 0 0 [], table) := by
  have hf1 : (filter_by_destinations table req.destinations).isEmpty = false := by
    cases hf : (filter_by_destinations table req.destinations).isEmpty with
    | false => rfl
    | true =>
      exfalso
      have hnil : filter_by_destinations table req.destinations = [] :=
        List.isEmpty_iff.mp hf
      have : eligible_carriers table req rqs rqe = [] := by
        unfold eligible_carriers
        rw [hnil]
        rfl
      rw [this] at hne
      simp at hne
  have hfeas : ∃ x, lpFeasible (eligible_carriers table req rqs rqe)
      req.requested_tps req.destinations x := by
    refine ⟨List.replicate (eligible_carriers table req rqs rqe).length 0, ?_⟩
    rw [htps]
    exact replicate_zero_feasible _ _
  have hsome := hcomp hfeas
  obtain ⟨x, hx⟩ := Option.isSome_iff_exists.mp hsome
  obtain ⟨hlen, hbounds, hsum, hdest⟩ := hsound x hx
  have hxnn : ∀ v ∈ x, 0 ≤ v := by
    intro v hv
    have hmap : v ∈ ((eligible_carriers table req rqs rqe).zip x).map
        (fun p : Carrier × ℚ => p.2) := by
      rw [show (fun p : Carrier × ℚ => p.2) = Prod.snd from rfl]
      rw [List.map_snd_zip (eligible_carriers table req rqs rqe) x (le_of_eq hlen)]
      exact hv
    rcases List.mem_map.mp hmap with ⟨p, hp, rfl⟩
    exact (hbounds p hp).1
  have hsum0 : x.sum = 0 := by rw [hsum, htps]
  have hx0 : ∀ v ∈ x, v = 0 := sum_zero_of_nonneg hsum0 hxnn
  have hbuild : build_allocations ((eligible_carriers table req rqs rqe).zip x) = [] := by
    unfold build_allocations
    rw [List.filterMap_eq_nil_iff]
    intro p hp
    have hz : p.2 = 0 := hx0 p.2 (List.of_mem_zip hp).2
    rw [hz]
    simp
  have hentries : allocation_entries ((eligible_carriers table req rqs rqe).zip x)
      = [] := by
    unfold allocation_entries
    rw [hbuild]
    rfl
  unfold allocate_customer_capacity
  simp only [hf1, hpw, hne, hx, hentries, Bool.false_eq_true, if_false]
  have hr0 : round2 x.sum = 0 := by
    rw [hsum0]
    norm_num [round2]
  have ht0 : truncQ req.requested_tps = 0 := by
    rw [htps]
    norm_num [truncQ]
  rw [hr0, ht0]
  rfl

/-- Witness for C10 at a concrete zero-TPS request. -/
theorem zero_tps_allocation_witness :
    allocate_customer_capacity zeroVecSolver [carrierA] ⟨0, ["US"], some "0-23"⟩ =
      some (.success 0 0 [], [carrierA]) :=
  zero_tps_allocation zeroVecSolver [carrierA] ⟨0, ["US"], some "0-23"⟩ 0 23
    rfl (by decide) (by decide)
    (by
      intro x hx
      simp only [zeroVecSolver, if_pos] at hx
      obtain rfl := Option.some.inj hx
      exact replicate_zero_feasible _ _)
    (by
      intro hex
      simp [zeroVecSolver])

/-- C3: the capacity-availability stage never removes a carrier — the
emptiness re-check after computing `max_allocatable_tps` is dead code. A
destination-matching carrier with `allocatable_tps = 0` therefore reaches the
LP, whose bounds force infeasibility, and the request is rejected with the
solver-failure message, not with a capacity-availability rejection. -/
theorem zero_capacity_reaches_solver (solve : Solver)
    (hsound : ∀ x, solve [zeroCapacityCarrier] 10 ["US"] = some x →
      lpFeasible [zeroCapacityCarrier] 10 ["US"] x) :
    allocate_customer_capacity solve [zeroCapacityCarrier]
      ⟨10, ["US"], some "0-23"⟩ =
    some (.error "Could not allocate TPS under current constraints",
      [zeroCapacityCarrier]) := by
  have hf1 : (filter_by_destinations [zeroCapacityCarrier] ["US"]).isEmpty = false := by
    decide
  have hpw : parsePeakWindow ((some "0-23").getD "0-23") = some (0, 23) := by decide
  have helig : eligible_carriers [zeroCapacityCarrier] ⟨10, ["US"], some "0-23"⟩ 0 23
      = [zeroCapacityCarrier] := by decide
  have hnone : solve [zeroCapacityCarrier] 10 ["US"] = none := by
    cases hs : solve [zeroCapacityCarrier] 10 ["US"] with
    | none => rfl
    | some x =>
      exfalso
      obtain ⟨hlen, hbounds, hsum, hdest⟩ := hsound x hs
      obtain ⟨a, rfl⟩ := List.length_eq_one.mp hlen
      have hmem : (zeroCapacityCarrier, a) ∈ [zeroCapacityCarrier].zip [a] := by
        simp
      obtain ⟨ha0, hacap⟩ := hbounds (zeroCapacityCarrier, a) hmem
      have hcap : (compute_allocatable_tps zeroCapacityCarrier : ℚ) = 0 := by
        norm_num [compute_allocatable_tps, zeroCapacityCarrier, truncQ]
      rw [hcap] at hacap
      have ha : a = 0 := le_antisymm hacap ha0
      rw [List.sum_cons, List.sum_nil, add_zero] at hsum
      rw [ha] at hsum
      norm_num at hsum
  unfold allocate_customer_capacity
  simp only [hf1, hpw, helig, hnone, Bool.false_eq_true, if_false, List.isEmpty_cons]

/-- Witness for C3: the infeasibility-reporting solver at the failing input. -/
theorem zero_capacity_reaches_solver_witness :
    allocate_customer_capacity noneSolver [zeroCapacityCarrier]
      ⟨10, ["US"], some "0-23"⟩ =
    some (.error "Could not allocate TPS under current constraints",
      [zeroCapacityCarrier]) :=
  zero_capacity_reaches_solver noneSolver (fun x hx => absurd hx (by simp [noneSolver]))

/-- C7 counterexample: the carrier with peak window `[23, 24)` overlaps the
half-open interval `[0, 24)` (second conjunct), so under the claim it would be
kept when `peak_window` is omitted; the code instead parses the default
`"0-23"` as `[0, 23)` and rejects the request at the peak-window stage. -/
theorem default_window_counterexample :
    allocate_customer_capacity noneSolver [carrierLate] ⟨5, ["US"], none⟩ =
      some (.error "No carriers found supporting the requested peak times",
        [carrierLate]) ∧
    ¬ (carrierLate.actual_peak_end_time ≤ 0 ∨
        (24 : Int) ≤ carrierLate.actual_peak_start_time) := by
  decide

/-- C7 (amended): a request that omits `peak_window` behaves exactly as if it
had requested `"0-23"`, i.e. the half-open window `[0, 23)`: a carrier is kept
by the default peak stage iff its window has positive overlap with `[0, 23)`
(`0 < end ∧ start < 23`), not with `[0, 24)`. -/
theorem omitted_peak_window_default (solve : Solver) (table : List Carrier)
    (req : AllocationRequest) (hpw : req.peak_window = none) :
    allocate_customer_capacity solve table req =
      allocate_customer_capacity solve table
        ⟨req.requested_tps, req.destinations, some "0-23"⟩ ∧
    ∀ c : Carrier, peak_time_overlaps 0 23 c = true ↔
      (0 < c.actual_peak_end_time ∧ c.actual_peak_start_time < 23) := by
  constructor
  · obtain ⟨tps, ds, pw⟩ := req
    cases hpw
    rfl
  · intro c
    simp [peak_time_overlaps, not_or, not_le]

/-- Witness for C7 (amended) at a concrete request omitting `peak_window`. -/
theorem omitted_peak_window_default_witness :
    (allocate_customer_capacity noneSolver [carrierLate] ⟨5, ["US"], none⟩ =
      allocate_customer_capacity noneSolver [carrierLate] ⟨5, ["US"], some "0-23"⟩) ∧
    ∀ c : Carrier, peak_time_overlaps 0 23 c = true ↔
      (0 < c.actual_peak_end_time ∧ c.actual_peak_start_time < 23) :=
  omitted_peak_window_default noneSolver [carrierLate] ⟨5, ["US"], none⟩ rfl

/-- C8 counterexample: a request with every required key present but a
`peak_window` of the wrong shape is not rejected as malformed: the call ends
in an uncaught exception (`none`), and the destination filter had already run
(second conjunct: its result is non-empty). -/
theorem malformed_shape_counterexample :
    allocate_capacity_helper noneSolver [carrierA]
      ⟨some 10, some ["US"], some "noon", some 300⟩ = none ∧
    (filter_by_destinations [carrierA] ["US"]).isEmpty = false := by
  decide

/-- C8 (amended): a request missing any required key is rejected with the
"Missing required fields" failure as a normal return value before any
filtering; but a present `peak_window` of the wrong shape is not validated —
the engine raises (returns `none`) after the destination filter has run. -/
theorem malformed_request_handling (solve : Solver) (table : List Carrier) :
    (∀ r : RawRequest,
       (r.requested_tps = none ∨ r.destinations = none ∨ r.peak_window = none ∨
         r.peak_tps = none) →
       allocate_capacity_helper solve table r =
         some (.failure "Missing required fields", table)) ∧
    (∀ (tps : ℚ) (ds : List String) (pw : String) (pt : ℚ),
       parsePeakWindow pw = none →
       (filter_by_destinations table ds).isEmpty = false →
       allocate_capacity_helper solve table ⟨some tps, some ds, some pw, some pt⟩
         = none) := by
  constructor
  · intro r hmiss
    obtain ⟨a, b, c, d⟩ := r
    cases a <;> cases b <;> cases c <;> cases d <;>
      simp_all [allocate_capacity_helper]
  · intro tps ds pw pt hpw hf
    have hall : allocate_customer_capacity solve table ⟨tps, ds, some pw⟩ = none := by
      unfold allocate_customer_capacity
      simp only [Option.getD_some, hf, hpw, Bool.false_eq_true, if_false]
    simp [allocate_capacity_helper, hall]

/-- Witness for C8 (amended) at a concrete request missing `requested_tps`. -/
theorem malformed_request_handling_witness :
    allocate_capacity_helper noneSolver [carrierA]
      ⟨none, some ["US"], some "0-23", some 300⟩ =
      some (.failure "Missing required fields", [carrierA]) :=
  (malformed_request_handling noneSolver [carrierA]).1
    ⟨none, some ["US"], some "0-23", some 300⟩ (Or.inl rfl)

end SmartCap
